import Mathlib

/-!
Verification development for the gorest `rest` package (route binding and
dispatch engine).  The definitions below are shallow embeddings of the Go
source files `src/rest/route.go`, `src/rest/mux.go` and `src/rest/client.go`.
The repository's `path.go`, `router.go` and `error.go` are not present under
`src/`; the few pieces needed from them (the router trie, the error taxonomy
and the `CodedError` shape) are modelled from the spec and from their usage in
the files that are present, and are marked as such in their doc comments.
-/

namespace Rest

/-- Modelled from the spec: the error taxonomy of §7 (`error.go` is absent from
`src/`).  The constructor set is exactly the closed taxonomy listed in the spec
plus the client-side kinds referenced by `client.go`. -/
inductive ErrorType where
  | UnmarshalError
  | MarshalError
  | HandlerError
  | UnknownRoute
  | UnsupportedContentType
  | ReadBodyError
  | NewRequestError
  | SendRequestError
  | EndpointError
  | UnexpectedStatusCode
deriving DecidableEq

/-- Modelled from the spec: Go `error` values as they appear in this package
(`error.go` is absent from `src/`).  A value is either a plain error carrying
its message, or a `CodedError` carrying a status `Code` and a wrapped `Sub`
error; the two fields are exactly the ones `Mux.respondError` in
`src/rest/mux.go` reads (`coded.Code`, `coded.Sub`). -/
inductive GoErr where
  | plain (msg : String)
  | coded (code : Int) (sub : GoErr)
deriving DecidableEq

/-- Message of an error, as `err.Error()` would produce it.  For `CodedError`
(whose `Error()` method lives in the absent `error.go`) the sub-error's
message is used. -/
def GoErr.message : GoErr → String
  | .plain m => m
  | .coded _ sub => sub.message

/-- The structured error `Error{ErrorType, error}` of the package, as used by
`Route.invoke` in `src/rest/route.go` (`&Error{UnmarshalError, err}` etc.).
The Go field `Type` is called `etype` here because `Type` is not a usable
field name in Lean. -/
structure Error where
  etype : ErrorType
  sub : GoErr
deriving DecidableEq

/-- The reflect kinds a handler input argument can have, as dispatched on by
`Route.parseArg` in `src/rest/route.go` lines 129-165.  The integer kinds
carry the bit width that Go's `value.Type().Bits()` reports (8/16/32/64);
`other` stands for every kind outside the `switch`, which falls into the
`default` branch. -/
inductive ArgKind where
  | str
  | boolean
  | sint (bits : Nat)
  | uint (bits : Nat)
  | float (bits : Nat)
  | other
deriving DecidableEq

/-- A parsed Go value produced by argument binding.  Floating-point values are
carried as their source string: no claim inspects float arithmetic, only the
accept/reject behaviour of the parse. -/
inductive GoVal where
  | vstr (s : String)
  | vbool (b : Bool)
  | vint (i : Int)
  | vuint (n : Nat)
  | vfloat (s : String)
deriving DecidableEq

/-- Numeric value of a decimal digit character, if it is one. -/
def digitVal? (c : Char) : Option Nat :=
  if '0' ≤ c ∧ c ≤ '9' then some (c.toNat - '0'.toNat) else none

/-- Accumulating base-10 evaluation of a digit string; fails on the first
non-digit. -/
def digitsVal : List Char → Nat → Option Nat
  | [], acc => some acc
  | c :: cs, acc =>
    match digitVal? c with
    | some d => digitsVal cs (acc * 10 + d)
    | none => none

/-- Value of a non-empty all-digit string. -/
def parseDigits (cs : List Char) : Option Nat :=
  if cs.isEmpty then none else digitsVal cs 0

/-- Model of Go `strconv.ParseInt(s, 10, bits)` (standard library): optional
leading sign, then one or more decimal digits, with the value required to fit
in a signed integer of the given width. -/
def goParseInt (s : String) (bits : Nat) : Except GoErr Int :=
  let cs := s.toList
  let signDigits : Bool × List Char :=
    match cs with
    | '-' :: rest => (true, rest)
    | '+' :: rest => (false, rest)
    | _ => (false, cs)
  match parseDigits signDigits.2 with
  | none => .error (.plain "invalid syntax")
  | some n =>
    let v : Int := if signDigits.1 then -(n : Int) else (n : Int)
    if v < -(2 ^ (bits - 1) : Int) ∨ (2 ^ (bits - 1) : Int) - 1 < v then
      .error (.plain "value out of range")
    else .ok v

/-- Model of Go `strconv.ParseUint(s, 10, bits)` (standard library): one or
more decimal digits, no sign, value below `2 ^ bits`. -/
def goParseUint (s : String) (bits : Nat) : Except GoErr Nat :=
  match parseDigits s.toList with
  | none => .error (.plain "invalid syntax")
  | some n =>
    if (2 ^ bits : Nat) - 1 < n then .error (.plain "value out of range")
    else .ok n

/-- Model of Go `strconv.ParseBool` (standard library): the twelve accepted
literals, everything else a syntax error. -/
def goParseBool (s : String) : Except GoErr Bool :=
  if s = "1" ∨ s = "t" ∨ s = "T" ∨ s = "true" ∨ s = "TRUE" ∨ s = "True" then .ok true
  else if s = "0" ∨ s = "f" ∨ s = "F" ∨ s = "false" ∨ s = "FALSE" ∨ s = "False" then .ok false
  else .error (.plain "invalid syntax")

/-- All characters are decimal digits. -/
def allDigits (cs : List Char) : Bool :=
  cs.all fun c => decide ('0' ≤ c) && decide (c ≤ '9')

/-- Split a character list at the first exponent marker, if any. -/
def splitAtExp : List Char → List Char × Option (List Char)
  | [] => ([], none)
  | c :: cs =>
    if c = 'e' ∨ c = 'E' then ([], some cs)
    else
      let p := splitAtExp cs
      (c :: p.1, p.2)

/-- A valid decimal mantissa: digits with at most one dot and at least one
digit overall. -/
def mantissaOk (cs : List Char) : Bool :=
  let digitsOnly := cs.filter (fun c => c ≠ '.')
  allDigits digitsOnly && !digitsOnly.isEmpty && decide (cs.count '.' ≤ 1)

/-- A valid exponent part: optional sign then one or more digits. -/
def expPartOk : Option (List Char) → Bool
  | none => true
  | some cs =>
    let ds :=
      match cs with
      | '+' :: rest => rest
      | '-' :: rest => rest
      | _ => cs
    allDigits ds && !ds.isEmpty

/-- Model of the syntax accepted by Go `strconv.ParseFloat` (standard
library), restricted to the common decimal forms plus inf/nan literals; no
claim evaluates a float concretely, only acceptance matters. -/
def goFloatOk (s : String) : Bool :=
  let cs :=
    match s.toList with
    | '+' :: rest => rest
    | '-' :: rest => rest
    | cs => cs
  let low := String.mk (cs.map Char.toLower)
  if low = "inf" ∨ low = "infinity" ∨ low = "nan" then true
  else
    let p := splitAtExp cs
    mantissaOk p.1 && expPartOk p.2

/-- Embedding of `Route.parseArg` (`src/rest/route.go` lines 129-165): the
type-directed conversion of one extracted path-argument string into the
handler's declared kind.  String passthrough, boolean / signed / unsigned /
float parses at the declared bit width, and the `default` branch rejecting
every other kind with the unsupported-argument-type error. -/
def Route.parseArg (data : String) (k : ArgKind) : Except GoErr GoVal :=
  match k with
  | .str => .ok (.vstr data)
  | .boolean => (goParseBool data).map .vbool
  | .sint bits => (goParseInt data bits).map .vint
  | .uint bits => (goParseUint data bits).map .vuint
  | .float bits =>
    if goFloatOk data then .ok (.vfloat data)
    else
      let _ := bits
      .error (.plain "invalid syntax")
  | .other => .error (.plain "unsupported argument type for route")

/-- The reflect kinds distinguished by `Route.isNil` (`src/rest/route.go`
lines 167-180): strings, the five nil-able kinds of its second case, and
`kother` for every other kind (numerics, structs, arrays, ...) which falls
into the `default` branch. -/
inductive RKind where
  | kstring
  | kchan
  | kinterface
  | kmap
  | kptr
  | kslice
  | kother
deriving DecidableEq

/-- A reflected output value of a handler call, carrying exactly the
observations `Route.invoke` makes of it: its kind, the result of `IsNil()`
(meaningful for the nil-able kinds and for the error interface slot), the
string content (meaningful for `kstring`), the wrapped error value when the
slot is the error output, and the result of `json.NewEncoder(...).Encode` on
it (the encoding produced, or the encoder's error). -/
structure RVal where
  kind : RKind
  isNilV : Bool
  strVal : String
  errVal : GoErr
  jsonVal : Except GoErr (List UInt8)

instance : Inhabited RVal :=
  ⟨⟨.kother, false, "", .plain "", .error (.plain "")⟩⟩

/-- Embedding of `Route.isNil` (`src/rest/route.go` lines 167-180): a string
is "nil" when its length is zero; a chan/interface/map/pointer/slice when
`IsNil()` reports nil; every other kind never. -/
def Route.isNil (v : RVal) : Bool :=
  match v.kind with
  | .kstring => v.strVal.length == 0
  | .kchan | .kinterface | .kmap | .kptr | .kslice => v.isNilV
  | .kother => false

/-- The binding metadata `Route.init` precomputes (`src/rest/route.go`):
`inBody` is the Go zero value 0 unless the handler takes one more argument
than the path provides, `outBody`/`outError` are the output slot indices with
-1 meaning absent. -/
structure RouteMeta where
  inBody : Int
  outBody : Int
  outError : Int
deriving DecidableEq

/-- The reflected shape of a registered handler, carrying exactly what
`Route.init` inspects: whether the value is a function, the kinds of its
inputs in order, and for each output whether its type is exactly the `error`
interface type (`out == errorType` in the source). -/
structure HandlerType where
  isFunc : Bool
  ins : List ArgKind
  outs : List Bool
deriving DecidableEq

/-- Embedding of the output-classification loop of `Route.init`
(`src/rest/route.go` lines 106-124): walk the output types in order, record
the index of the error output and of the normal (body) output, and fail on a
second output of either class.  Returns `(outBody, outError)`. -/
def assignOuts : List Bool → Nat → Int → Int → Except String (Int × Int)
  | [], _, outB, outE => .ok (outB, outE)
  | isErr :: rest, i, outB, outE =>
    if isErr then
      if 0 ≤ outE then .error "too many error return for route"
      else assignOuts rest (i + 1) outB (i : Int)
    else
      if 0 ≤ outB then .error "too many normal return for route"
      else assignOuts rest (i + 1) (i : Int) outE

/-- Embedding of `Route.init` (`src/rest/route.go` lines 80-127), with
`pathArgs` standing for `route.Path.NumArgs()`.  The `log.Panicf` calls of
the source are rendered as `Except.error` with the static part of each panic
message.  The comparisons are over Go `int`, hence the casts to `Int`
(`handlerArgs - 1` may be -1). -/
def Route.init (pathArgs : Nat) (h : HandlerType) : Except String RouteMeta :=
  if h.isFunc = false then .error "invalid handler type for route"
  else if (pathArgs : Int) < (h.ins.length : Int) - 1 then
    .error "not enough path arguments for route"
  else if (pathArgs : Int) > (h.ins.length : Int) then
    .error "too many path arguments for route"
  else if h.outs.length > 2 then .error "too many return arguments for route"
  else
    (assignOuts h.outs 0 (-1) (-1)).map fun p =>
      ⟨if (pathArgs : Int) < (h.ins.length : Int) then (h.ins.length : Int) else 0,
        p.1, p.2⟩

/-- Embedding of the argument-binding loop of `Route.invoke`
(`src/rest/route.go` lines 186-201): for input position `i`, a position
within the extracted path arguments is converted with `parseArg`, a position
past them is decoded from the request body by `json.NewDecoder(...).Decode`
(the external JSON decoder, passed in as `dec`); the loop stops at the first
failure.  The source's `i < len(args)` test is rendered as `args.get? i`
returning a value. -/
def bindFrom (dec : ArgKind → List UInt8 → Except GoErr GoVal) (body : List UInt8)
    (args : List String) : Nat → List ArgKind → Except GoErr (List GoVal)
  | _, [] => .ok []
  | i, k :: ks =>
    let r := match args.get? i with
      | some a => Route.parseArg a k
      | none => dec k body
    match r with
    | .error e => .error e
    | .ok v =>
      match bindFrom dec body args (i + 1) ks with
      | .error e => .error e
      | .ok vs => .ok (v :: vs)

/-- Output value at an `Int` slot index, as `out[route.outError]` /
`out[route.outBody]` read it (only ever used behind a `>= 0` guard in the
source). -/
def rvalAt (out : List RVal) (i : Int) : RVal :=
  out.getD i.toNat default

/-- Embedding of the output-interpretation half of `Route.invoke`
(`src/rest/route.go` lines 203-220): a non-nil error output short-circuits to
`HandlerError` with no body; otherwise a non-"nil" body output is
JSON-encoded (`MarshalError` on encoder failure); otherwise the response body
stays empty. -/
def invokeOut (meta : RouteMeta) (out : List RVal) : Except Error (List UInt8) :=
  if 0 ≤ meta.outError ∧ (rvalAt out meta.outError).isNilV = false then
    .error ⟨.HandlerError, (rvalAt out meta.outError).errVal⟩
  else if 0 ≤ meta.outBody ∧ Route.isNil (rvalAt out meta.outBody) = false then
    match (rvalAt out meta.outBody).jsonVal with
    | .error e => .error ⟨.MarshalError, e⟩
    | .ok bs => .ok bs
  else .ok []

/-- A fully initialized route as `Route.invoke` consumes it: the binding
metadata computed by `init`, the handler's input kinds, the handler itself
(from bound inputs to reflected outputs), and the external JSON body decoder
instantiated at the handler's body-argument type. -/
structure Route where
  meta : RouteMeta
  ins : List ArgKind
  call : List GoVal → List RVal
  dec : ArgKind → List UInt8 → Except GoErr GoVal

/-- Embedding of `Route.invoke` (`src/rest/route.go` lines 182-222): bind the
extracted path-argument strings and the body, wrapping any binding failure as
`UnmarshalError` without calling the handler; then call the handler and
interpret its outputs. -/
def Route.invoke (r : Route) (args : List String) (body : List UInt8) :
    Except Error (List UInt8) :=
  match bindFrom r.dec body args 0 r.ins with
  | .error e => .error ⟨.UnmarshalError, e⟩
  | .ok vs => invokeOut r.meta (r.call vs)

/-- Modelled from the spec: the router's matching structure (`router.go` is
absent from `src/`).  Spec §4.3: a per-method trie keyed by segment, where a
node has literal-keyed branches, at most one argument branch, and possibly a
route bound at the node. -/
inductive TrieNode where
  | mk (lits : List (String × TrieNode)) (argBranch : Option TrieNode) (leaf : Option Route)

/-- Literal branches of a node. -/
def TrieNode.lits : TrieNode → List (String × TrieNode)
  | .mk l _ _ => l

/-- Argument branch of a node. -/
def TrieNode.argBranch : TrieNode → Option TrieNode
  | .mk _ a _ => a

/-- Route bound at a node, if any. -/
def TrieNode.leaf : TrieNode → Option Route
  | .mk _ _ r => r

/-- Look up a literal branch by its segment key. -/
def findLit : List (String × TrieNode) → String → Option TrieNode
  | [], _ => none
  | (s, t) :: rest, seg => if s = seg then some t else findLit rest seg

/-- Modelled from the spec: trie resolution (`router.go` is absent from
`src/`).  Spec §4.3: walk the trie one segment at a time, preferring a
literal-branch match over the argument branch at each node, collecting the
traversed argument segments; a terminal node bound to a route for a fully
consumed path is success, any dead end is no match. -/
def trieLookup : List String → TrieNode → Option (Route × List String)
  | [], t => t.leaf.map fun r => (r, [])
  | seg :: rest, t =>
    match findLit t.lits seg with
    | some child => trieLookup rest child
    | none =>
      match t.argBranch with
      | some child => (trieLookup rest child).map fun p => (p.1, seg :: p.2)
      | none => none

/-- Split a character list on the path separator. -/
def splitSegs : List Char → List Char → List (List Char)
  | [], cur => [cur.reverse]
  | c :: cs, cur =>
    if c = '/' then cur.reverse :: splitSegs cs []
    else splitSegs cs (c :: cur)

/-- Modelled from the spec: path tokenization for trie resolution
(`router.go` is absent from `src/`).  Spec §4.3: "tokenizes path on the
separator"; empty segments carry no information and are dropped. -/
def tokenize (s : String) : List String :=
  ((splitSegs s.toList []).filter fun t => !t.isEmpty).map String.mk

/-- Look up a method's trie. -/
def findMethod : List (String × TrieNode) → String → Option TrieNode
  | [], _ => none
  | (m, t) :: rest, method => if m = method then some t else findMethod rest method

/-- Modelled from the spec: `router.Route(method, path)` (`router.go` is
absent from `src/`): resolve the method's trie, then walk it over the
tokenized path. -/
def routerRoute (router : List (String × TrieNode)) (method path : String) :
    Option (Route × List String) :=
  match findMethod router method with
  | none => none
  | some t => trieLookup (tokenize path) t

/-- Character-list version of Go `strings.HasPrefix`. -/
def leadMatches : List Char → List Char → Bool
  | _, [] => true
  | [], _ :: _ => false
  | c :: cs, d :: ds => c = d && leadMatches cs ds

/-- Go `strings.HasPrefix(s, lead)`. -/
def hasLead (s lead : String) : Bool :=
  leadMatches s.toList lead.toList

/-- Drop the first `n` characters of a string, as the source's `path[len(root):]`
slices it (byte and character positions coincide on the paths involved). -/
def strDrop (s : String) (n : Nat) : String :=
  String.mk (s.toList.drop n)

/-- Character-list trim of leading and trailing slashes, as
`strings.Trim(root, "/")` produces it. -/
def trimSlashes (s : String) : String :=
  String.mk (((s.toList.dropWhile fun c => c = '/').reverse.dropWhile fun c => c = '/').reverse)

/-- Embedding of the root normalization of `Mux.init` (`src/rest/mux.go`
lines 45-51): an unset root becomes "/", otherwise a single leading slash is
put before the slash-trimmed root. -/
def muxNormRoot (root : String) : String :=
  if root.length = 0 then "/" else "/" ++ trimSlashes root

/-- The mux state that routing reads (`src/rest/mux.go`): the configured root
path, the optional user error hook, and the per-method route trie.  The
`DefaultHandler` field is represented by the `defaultHandler` outcome of
`Mux.ServeHTTP`. -/
structure Mux where
  Root : String
  ErrorFunc : Option (ErrorType → GoErr → GoErr)
  router : List (String × TrieNode)

/-- Embedding of `Mux.route` (`src/rest/mux.go` lines 74-83), with the root
already normalized as `Mux.Init` leaves it: when the normalized root is a
leading part of the request path, resolve the remainder against the router;
`none` stands for the plain `unknown path` error the source returns. -/
def Mux.route (m : Mux) (method path : String) : Option (Route × List String) :=
  let root := muxNormRoot m.Root
  if hasLead path root then routerRoute m.router method (strDrop path root.length)
  else none

/-- Apply the user error hook, when set, as the first step of
`Mux.respondError` does. -/
def applyErrorFunc (ef : Option (ErrorType → GoErr → GoErr)) (t : ErrorType)
    (e : GoErr) : GoErr :=
  match ef with
  | some f => f t e
  | none => e

/-- Embedding of `Mux.respondError` (`src/rest/mux.go` lines 85-96): run the
error hook if present, then, if the (possibly rewritten) error is a
`CodedError`, replace the status code with its `Code` and the error with its
`Sub`; the result is the `(status, message)` pair handed to `http.Error`. -/
def Mux.respondError (ef : Option (ErrorType → GoErr → GoErr)) (t : ErrorType)
    (code : Int) (e : GoErr) : Int × String :=
  match applyErrorFunc ef t e with
  | .coded c sub => (c, sub.message)
  | .plain msg => (code, msg)

/-- The observable outcome of one `ServeHTTP` call: delegation to the
`DefaultHandler`, an error response written through `http.Error`, a 204
no-content response, or a JSON body response. -/
inductive Outcome where
  | defaultHandler
  | errorResponse (etype : ErrorType) (code : Int) (msg : String)
  | noContent
  | jsonBody (body : List UInt8)
deriving DecidableEq

/-- An error response as `Mux.ServeHTTP` writes one: `respondError` with the
status `http.StatusBadRequest` and the error type that reached it. -/
def errOutcome (ef : Option (ErrorType → GoErr → GoErr)) (t : ErrorType)
    (e : GoErr) : Outcome :=
  .errorResponse t (Mux.respondError ef t 400 e).1 (Mux.respondError ef t 400 e).2

/-- An incoming request as `Mux.ServeHTTP` observes it: method, URL path, the
`Content-Type` header value ("" when the header is absent, as `Header.Get`
reports it), and the result of reading the body. -/
structure Request where
  Method : String
  Path : String
  contentType : String
  bodyRead : Except GoErr (List UInt8)

/-- Embedding of `Mux.ServeHTTP` (`src/rest/mux.go` lines 101-127): a route
miss delegates to the `DefaultHandler`; a matched request is rejected with
`UnsupportedContentType` when the `Content-Type` header differs from
`application/json`; a body read failure is `ReadBodyError`; an `invoke` error
is forwarded with its own error type; an empty response body writes 204 and a
non-empty one is written as JSON.  Every error goes through `respondError`
with status 400. -/
def Mux.ServeHTTP (m : Mux) (req : Request) : Outcome :=
  match m.route req.Method req.Path with
  | none => .defaultHandler
  | some rp =>
    if req.contentType ≠ "application/json" then
      errOutcome m.ErrorFunc .UnsupportedContentType
        (.plain ("unsupported content type: got " ++ req.contentType))
    else
      match req.bodyRead with
      | .error e => errOutcome m.ErrorFunc .ReadBodyError e
      | .ok body =>
        match Route.invoke rp.1 rp.2 body with
        | .error re => errOutcome m.ErrorFunc re.etype re.sub
        | .ok resp => if resp.length = 0 then .noContent else .jsonBody resp

/-- A received response as `Response.GetBody` observes it
(`src/rest/client.go`): the transport error if any, the status code, the
`Content-Type` header value, and the raw body (kept as a string, as the
source only ever turns it into an error message). -/
structure Response where
  error : Option Error
  code : Int
  contentType : String
  body : String

/-- The out-of-range-status condition of `Response.GetBody`
(`src/rest/client.go` line 223): `resp.Code < 200 && resp.Code >= 300`,
verbatim. -/
def statusRangeCheck (code : Int) : Bool :=
  if code < 200 ∧ 300 ≤ code then true else false

/-- Embedding of `Response.GetBody` (`src/rest/client.go` lines 213-240).
`objIsNil` is whether the caller passed a nil object, `um` is the result of
`json.Unmarshal(resp.Body, obj)` (the external decoder): `none` for success,
`some e` for a decode error.  The final branch reproduces the source
verbatim: its condition tests the named return `err`, which is still nil at
that point, not the just-computed `jsonErr`. -/
def Response.GetBody (resp : Response) (objIsNil : Bool) (um : Option GoErr) :
    Option Error :=
  if resp.error.isSome then resp.error
  else if resp.code = 404 then some ⟨.UnknownRoute, .plain resp.body⟩
  else if 400 ≤ resp.code then some ⟨.EndpointError, .plain resp.body⟩
  else if statusRangeCheck resp.code then
    some ⟨.UnexpectedStatusCode, .plain "unexpected status code"⟩
  else if resp.code = 204 then
    if objIsNil then none
    else some ⟨.UnexpectedStatusCode, .plain "unexpected status code: 204"⟩
  else if resp.contentType ≠ "application/json" then
    some ⟨.UnsupportedContentType, .plain "unsupported content-type"⟩
  else
    let jsonErr := um
    let err : Option Error := none
    if err.isSome then some ⟨.UnmarshalError, jsonErr.getD (.plain "")⟩ else err

/-- `Response.GetBody` with the unreachable status-range branch removed; this
definition follows the spec's description of the intended chain and exists
only to be compared with the one translated from the source. -/
def Response.GetBodyNoRange (resp : Response) (objIsNil : Bool) (um : Option GoErr) :
    Option Error :=
  if resp.error.isSome then resp.error
  else if resp.code = 404 then some ⟨.UnknownRoute, .plain resp.body⟩
  else if 400 ≤ resp.code then some ⟨.EndpointError, .plain resp.body⟩
  else if resp.code = 204 then
    if objIsNil then none
    else some ⟨.UnexpectedStatusCode, .plain "unexpected status code: 204"⟩
  else if resp.contentType ≠ "application/json" then
    some ⟨.UnsupportedContentType, .plain "unsupported content-type"⟩
  else
    let jsonErr := um
    let err : Option Error := none
    if err.isSome then some ⟨.UnmarshalError, jsonErr.getD (.plain "")⟩ else err

/-- Number of error-typed output slots in a handler's output list. -/
def countTrue : List Bool → Nat
  | [] => 0
  | true :: r => countTrue r + 1
  | false :: r => countTrue r

/-- Number of non-error (body) output slots in a handler's output list. -/
def countFalse : List Bool → Nat
  | [] => 0
  | true :: r => countFalse r
  | false :: r => countFalse r + 1

/-- Does `Mux.ServeHTTP` end in an `UnsupportedContentType` error response? -/
def Outcome.isUCT : Outcome → Bool
  | .errorResponse .UnsupportedContentType _ _ => true
  | _ => false

lemma countTrue_add_countFalse (l : List Bool) :
    countTrue l + countFalse l = l.length := by
  induction l with
  | nil => rfl
  | cons b r ih => cases b <;> simp [countTrue, countFalse, List.length_cons] <;> omega

lemma map_ok_iff {ε α β : Type} (f : α → β) (x : Except ε α) :
    (∃ b, x.map f = .ok b) ↔ ∃ a, x = .ok a := by
  cases x <;> simp [Except.map]

lemma assignOuts_ok_iff (l : List Bool) : ∀ (i : Nat) (outB outE : Int),
    (∃ p, assignOuts l i outB outE = .ok p) ↔
      (countTrue l ≤ if 0 ≤ outE then 0 else 1) ∧
      (countFalse l ≤ if 0 ≤ outB then 0 else 1) := by
  induction l with
  | nil =>
    intro i outB outE
    simp [assignOuts, countTrue, countFalse]
  | cons b r ih =>
    intro i outB outE
    cases b
    · by_cases hB : (0 : Int) ≤ outB
      · apply iff_of_false
        · rintro ⟨p, hp⟩
          simp [assignOuts, hB] at hp
        · rintro ⟨-, h2⟩
          rw [if_pos hB] at h2
          simp [countFalse] at h2
      · rw [show assignOuts (false :: r) i outB outE = assignOuts r (i + 1) (i : Int) outE by
          simp [assignOuts, hB]]
        rw [ih]
        simp only [countTrue, countFalse, if_neg hB, Int.natCast_nonneg, if_pos]
        constructor
        · rintro ⟨h1, h2⟩; exact ⟨h1, by omega⟩
        · rintro ⟨h1, h2⟩; exact ⟨h1, by omega⟩
    · by_cases hE : (0 : Int) ≤ outE
      · apply iff_of_false
        · rintro ⟨p, hp⟩
          simp [assignOuts, hE] at hp
        · rintro ⟨h1, -⟩
          rw [if_pos hE] at h1
          simp [countTrue] at h1
      · rw [show assignOuts (true :: r) i outB outE = assignOuts r (i + 1) outB (i : Int) by
          simp [assignOuts, hE]]
        rw [ih]
        simp only [countTrue, countFalse, if_neg hE, Int.natCast_nonneg, if_pos]
        constructor
        · rintro ⟨h1, h2⟩; exact ⟨by omega, h2⟩
        · rintro ⟨h1, h2⟩; exact ⟨by omega, h2⟩

lemma init_ok_iff (pathArgs : Nat) (h : HandlerType) :
    (∃ m, Route.init pathArgs h = .ok m) ↔
      (h.isFunc = true ∧ (h.ins.length = pathArgs ∨ h.ins.length = pathArgs + 1) ∧
       countTrue h.outs ≤ 1 ∧ countFalse h.outs ≤ 1) := by
  cases hf : h.isFunc with
  | false =>
    apply iff_of_false
    · rintro ⟨m, hm⟩
      simp [Route.init, hf] at hm
    · rintro ⟨h1, -⟩
      cases h1
  | true =>
    simp only [Route.init, hf]
    rw [if_neg (by simp)]
    by_cases h1 : (pathArgs : Int) < (h.ins.length : Int) - 1
    · rw [if_pos h1]
      apply iff_of_false
      · rintro ⟨m, hm⟩; exact Except.noConfusion hm
      · rintro ⟨-, har, -⟩; omega
    · rw [if_neg h1]
      by_cases h2 : (pathArgs : Int) > (h.ins.length : Int)
      · rw [if_pos h2]
        apply iff_of_false
        · rintro ⟨m, hm⟩; exact Except.noConfusion hm
        · rintro ⟨-, har, -⟩; omega
      · rw [if_neg h2]
        by_cases h3 : h.outs.length > 2
        · rw [if_pos h3]
          apply iff_of_false
          · rintro ⟨m, hm⟩; exact Except.noConfusion hm
          · rintro ⟨-, -, hct, hcf⟩
            have := countTrue_add_countFalse h.outs
            omega
        · rw [if_neg h3]
          rw [map_ok_iff, assignOuts_ok_iff]
          have hneg : ¬ ((0 : Int) ≤ -1) := by decide
          simp only [if_neg hneg]
          constructor
          · rintro ⟨hct, hcf⟩
            exact ⟨by trivial, by omega, hct, hcf⟩
          · rintro ⟨-, -, hct, hcf⟩
            exact ⟨hct, hcf⟩

/-- C1, counterexample: a handler that is a function whose input arity equals
the path argument count (both 0) but has two non-error outputs fails
registration, so registration success is not equivalent to the arity
condition alone. -/
theorem claim_C1_counterexample :
    Route.init 0 ⟨true, [], [false, false]⟩ = .error "too many normal return for route" := rfl

/-- C1, amended: route registration succeeds iff the handler is a function,
its input arity equals the path argument count N or N+1, and its outputs
contain at most one error slot and at most one body slot; an input arity
greater than N+1 or less than N fails with the corresponding fatal
shape-mismatch error. -/
theorem claim_C1_amended (pathArgs : Nat) (h : HandlerType) :
    ((∃ m, Route.init pathArgs h = .ok m) ↔
      (h.isFunc = true ∧ (h.ins.length = pathArgs ∨ h.ins.length = pathArgs + 1) ∧
       countTrue h.outs ≤ 1 ∧ countFalse h.outs ≤ 1)) ∧
    (h.isFunc = true → pathArgs + 1 < h.ins.length →
      Route.init pathArgs h = .error "not enough path arguments for route") ∧
    (h.isFunc = true → h.ins.length < pathArgs →
      Route.init pathArgs h = .error "too many path arguments for route") := by
  refine ⟨init_ok_iff pathArgs h, ?_, ?_⟩
  · intro hf hlt
    have c1 : (pathArgs : Int) < (h.ins.length : Int) - 1 := by omega
    simp [Route.init, hf, c1]
  · intro hf hlt
    have c1 : ¬ ((pathArgs : Int) < (h.ins.length : Int) - 1) := by omega
    have c2 : (pathArgs : Int) > (h.ins.length : Int) := by omega
    simp [Route.init, hf, c1, c2]

/-- C1, witness: a one-input function against a two-argument path fails with
the too-many-path-arguments shape error. -/
theorem claim_C1_witness :
    Route.init 2 ⟨true, [ArgKind.str], []⟩ = .error "too many path arguments for route" :=
  (claim_C1_amended 2 ⟨true, [ArgKind.str], []⟩).2.2 rfl (by decide)

/-- C5, counterexample: a route whose only (non-body) input argument has an
unsupported kind is accepted by `Route.init` without error, so the violation
is not detected at construction. -/
theorem claim_C5_counterexample :
    Route.init 1 ⟨true, [ArgKind.other], []⟩ = .ok ⟨0, -1, -1⟩ := rfl

/-- C5, amended: `Route.init` never inspects the input argument kinds (its
result depends only on the handler's function-ness, input arity and output
types), so an unsupported non-body input type is not a construction-time
error; it surfaces per request, when `invoke` binds that position from a
path argument and `parseArg`'s default branch turns it into an
`UnmarshalError`. -/
theorem claim_C5_amended :
    (∀ (pathArgs : Nat) (h h2 : HandlerType),
      h.isFunc = h2.isFunc → h.ins.length = h2.ins.length → h.outs = h2.outs →
      Route.init pathArgs h = Route.init pathArgs h2) ∧
    (∀ (meta : RouteMeta) (call : List GoVal → List RVal)
        (dec : ArgKind → List UInt8 → Except GoErr GoVal)
        (body : List UInt8) (s : String) (rest : List String),
      Route.invoke ⟨meta, [ArgKind.other], call, dec⟩ (s :: rest) body =
        .error ⟨.UnmarshalError, .plain "unsupported argument type for route"⟩) := by
  constructor
  · intro pathArgs h h2 hfunc hins houts
    simp only [Route.init, hfunc, hins, houts]
  · intro meta call dec body s rest
    rfl

/-- C5, witness: the init-ignores-input-kinds part applied to the unsupported
single-argument handler against a supported one. -/
theorem claim_C5_witness :
    Route.init 1 ⟨true, [ArgKind.other], []⟩ = Route.init 1 ⟨true, [ArgKind.str], []⟩ :=
  claim_C5_amended.1 1 ⟨true, [ArgKind.other], []⟩ ⟨true, [ArgKind.str], []⟩ rfl rfl rfl

/-- C2: when binding succeeds and the handler's error output slot exists and
is non-nil, `invoke` returns no response body and a `HandlerError` wrapping
the handler's returned error, whatever the handler put in its body output
slot. -/
theorem claim_C2 (r : Route) (args : List String) (body : List UInt8) (vs : List GoVal)
    (hbind : bindFrom r.dec body args 0 r.ins = .ok vs)
    (he : 0 ≤ r.meta.outError)
    (hnil : (rvalAt (r.call vs) r.meta.outError).isNilV = false) :
    Route.invoke r args body =
      .error ⟨.HandlerError, (rvalAt (r.call vs) r.meta.outError).errVal⟩ := by
  have hred : Route.invoke r args body = invokeOut r.meta (r.call vs) := by
    unfold Route.invoke
    rw [hbind]
  rw [hred]
  unfold invokeOut
  rw [if_pos ⟨he, hnil⟩]

/-- C2, witness: a route whose handler has one error output, returning a
non-nil error and nothing else, short-circuits to `HandlerError`. -/
theorem claim_C2_witness :
    Route.invoke
      ⟨⟨0, -1, 0⟩, [],
        fun _ => [⟨.kinterface, false, "", .plain "boom", .error (.plain "")⟩],
        fun _ _ => .error (.plain "")⟩ [] [] =
      .error ⟨.HandlerError, .plain "boom"⟩ :=
  claim_C2
    ⟨⟨0, -1, 0⟩, [],
      fun _ => [⟨.kinterface, false, "", .plain "boom", .error (.plain "")⟩],
      fun _ _ => .error (.plain "")⟩ [] [] [] rfl (by decide) rfl

/-- C3: path-argument binding is type-directed parsing: "42" bound to a
signed-integer parameter (at either Go width) yields the integer 42 and the
handler is invoked with it; "abc" bound to a signed-integer parameter yields
an `UnmarshalError` wrapping the parse error, with the handler never invoked
(the result is the same for every handler); strings pass through; and any
binding failure at all is wrapped as `UnmarshalError` independently of the
handler. -/
theorem claim_C3 :
    (Route.parseArg "42" (.sint 64) = .ok (.vint 42)) ∧
    (Route.parseArg "42" (.sint 32) = .ok (.vint 42)) ∧
    (∀ s : String, Route.parseArg s .str = .ok (.vstr s)) ∧
    (Route.parseArg "abc" (.sint 64) = .error (.plain "invalid syntax")) ∧
    (∀ (meta : RouteMeta) (ins : List ArgKind)
        (dec : ArgKind → List UInt8 → Except GoErr GoVal)
        (args : List String) (body : List UInt8) (e : GoErr),
      bindFrom dec body args 0 ins = .error e →
      ∀ g, Route.invoke ⟨meta, ins, g, dec⟩ args body = .error ⟨.UnmarshalError, e⟩) ∧
    (∀ (meta : RouteMeta) (g : List GoVal → List RVal)
        (dec : ArgKind → List UInt8 → Except GoErr GoVal) (body : List UInt8),
      Route.invoke ⟨meta, [.sint 64], g, dec⟩ ["abc"] body =
        .error ⟨.UnmarshalError, .plain "invalid syntax"⟩) ∧
    (∀ (meta : RouteMeta) (g : List GoVal → List RVal)
        (dec : ArgKind → List UInt8 → Except GoErr GoVal) (body : List UInt8),
      Route.invoke ⟨meta, [.sint 64], g, dec⟩ ["42"] body = invokeOut meta (g [.vint 42])) := by
  refine ⟨rfl, rfl, fun s => rfl, rfl, ?_, ?_, ?_⟩
  · intro meta ins dec args body e hb g
    show (match bindFrom dec body args 0 ins with
      | .error e => (Except.error ⟨.UnmarshalError, e⟩ : Except Error (List UInt8))
      | .ok vs => invokeOut meta (g vs)) = .error ⟨.UnmarshalError, e⟩
    rw [hb]
  · intro meta g dec body
    rfl
  · intro meta g dec body
    rfl

/-- C3, witness: the binding-failure clause applied to the concrete
one-integer-argument route and the path argument "abc". -/
theorem claim_C3_witness :
    Route.invoke ⟨⟨0, -1, -1⟩, [.sint 64], fun _ => [], fun _ _ => .error (.plain "")⟩
      ["abc"] [] = .error ⟨.UnmarshalError, .plain "invalid syntax"⟩ :=
  claim_C3.2.2.2.2.1 ⟨0, -1, -1⟩ [.sint 64] (fun _ _ => .error (.plain ""))
    ["abc"] [] (.plain "invalid syntax") rfl (fun _ => [])

/-- C4: after a successful handler invocation (the error slot absent or nil),
the response body is empty exactly when the body output slot is absent or its
value is the semantic empty value of its type; otherwise the JSON encoding is
returned and an encoding failure is `MarshalError`; and the emptiness test
follows `isNil`: empty string, nil chan/interface/map/pointer/slice, and
never empty for any other kind. -/
theorem claim_C4 :
    (∀ (meta : RouteMeta) (out : List RVal),
      ¬ (0 ≤ meta.outError ∧ (rvalAt out meta.outError).isNilV = false) →
      (meta.outBody < 0 ∨ Route.isNil (rvalAt out meta.outBody) = true) →
      invokeOut meta out = .ok []) ∧
    (∀ (meta : RouteMeta) (out : List RVal),
      ¬ (0 ≤ meta.outError ∧ (rvalAt out meta.outError).isNilV = false) →
      0 ≤ meta.outBody → Route.isNil (rvalAt out meta.outBody) = false →
      invokeOut meta out =
        match (rvalAt out meta.outBody).jsonVal with
        | .error e => .error ⟨.MarshalError, e⟩
        | .ok bs => .ok bs) ∧
    (∀ v : RVal, v.kind = .kother → Route.isNil v = false) ∧
    (∀ v : RVal, v.kind = .kstring → (Route.isNil v = true ↔ v.strVal.length = 0)) ∧
    (∀ v : RVal,
      (v.kind = .kchan ∨ v.kind = .kinterface ∨ v.kind = .kmap ∨ v.kind = .kptr ∨
        v.kind = .kslice) → Route.isNil v = v.isNilV) := by
  refine ⟨?_, ?_, ?_, ?_, ?_⟩
  · intro meta out hguard hbody
    have h2 : ¬ (0 ≤ meta.outBody ∧ Route.isNil (rvalAt out meta.outBody) = false) := by
      rintro ⟨hb0, hnil⟩
      rcases hbody with hlt | heq
      · omega
      · rw [heq] at hnil
        cases hnil
    unfold invokeOut
    rw [if_neg hguard, if_neg h2]
  · intro meta out hguard hb hnil
    unfold invokeOut
    rw [if_neg hguard, if_pos ⟨hb, hnil⟩]
  · intro v hk
    unfold Route.isNil
    rw [hk]
  · intro v hk
    unfold Route.isNil
    rw [hk]
    simp
  · intro v hk
    unfold Route.isNil
    rcases hk with h | h | h | h | h <;> rw [h]

/-- C4, witness: a handler with no outputs at all produces the empty
response body. -/
theorem claim_C4_witness : invokeOut ⟨0, -1, -1⟩ [] = .ok [] :=
  claim_C4.1 ⟨0, -1, -1⟩ [] (by decide) (Or.inl (by decide))

lemma invoke_error_kind (r : Route) (args : List String) (body : List UInt8) (er : Error)
    (h : Route.invoke r args body = .error er) :
    er.etype = .UnmarshalError ∨ er.etype = .HandlerError ∨ er.etype = .MarshalError := by
  unfold Route.invoke at h
  cases hb : bindFrom r.dec body args 0 r.ins with
  | error e =>
    simp only [hb] at h
    injection h with h2
    subst h2
    left
    rfl
  | ok vs =>
    simp only [hb] at h
    unfold invokeOut at h
    split at h
    · injection h with h2
      subst h2
      right
      left
      rfl
    · split at h
      · split at h
        · injection h with h2
          subst h2
          right
          right
          rfl
        · exact Except.noConfusion h
      · exact Except.noConfusion h

/-- C6, counterexample: with no routes registered, a request is not answered
with an `UnknownRoute` structured error; `ServeHTTP` silently delegates to
the `DefaultHandler`. -/
theorem claim_C6_counterexample :
    Mux.ServeHTTP ⟨"", none, []⟩ ⟨"GET", "/foo", "application/json", .ok []⟩ =
      .defaultHandler := rfl

/-- C6, amended: when no registered route matches, `Mux.route` reports a
plain unknown-path miss and `ServeHTTP` delegates the request to the
`DefaultHandler` instead of writing any error response; the `UnknownRoute`
error kind is produced only on the client side, by `Response.GetBody` when
the endpoint answered 404. -/
theorem claim_C6_amended :
    (∀ (m : Mux) (req : Request),
      m.route req.Method req.Path = none → m.ServeHTTP req = .defaultHandler) ∧
    (∀ (resp : Response) (objIsNil : Bool) (um : Option GoErr),
      resp.error = none → resp.code = 404 →
      resp.GetBody objIsNil um = some ⟨.UnknownRoute, .plain resp.body⟩) := by
  constructor
  · intro m req h
    unfold Mux.ServeHTTP
    rw [h]
  · intro resp objIsNil um h1 h2
    simp [Response.GetBody, h1, h2]

/-- C6, witness: the delegation clause at a concrete empty mux, and request. -/
theorem claim_C6_witness :
    Mux.ServeHTTP ⟨"", none, []⟩ ⟨"PUT", "/bar", "", .ok []⟩ = .defaultHandler :=
  claim_C6_amended.1 ⟨"", none, []⟩ ⟨"PUT", "/bar", "", .ok []⟩ rfl

/-- A registered route taking no arguments and returning nothing, for the
content-type claims. -/
def exRoute7 : Route := ⟨⟨0, -1, -1⟩, [], fun _ => [], fun _ _ => .error (.plain "")⟩

/-- A mux with the single route `GET /items` bound to `exRoute7`. -/
def exMux7 : Mux :=
  ⟨"", none, [("GET", .mk [("items", .mk [] none (some exRoute7))] none none)]⟩

/-- C7, counterexample: a matched request with no body and no Content-Type
header (so `Header.Get` yields "") is rejected with
`UnsupportedContentType`, although the claim says it must not be. -/
theorem claim_C7_counterexample :
    Mux.ServeHTTP exMux7 ⟨"GET", "/items", "", .ok []⟩ =
      .errorResponse .UnsupportedContentType 400 "unsupported content type: got " := rfl

/-- C7, amended: for a matched request, an `UnsupportedContentType` error
response is produced if and only if the `Content-Type` header differs from
`application/json`, regardless of whether a body is present; in particular a
matched request with no body and no Content-Type header is rejected. -/
theorem claim_C7_amended (m : Mux) (req : Request) (r : Route) (args : List String)
    (hroute : m.route req.Method req.Path = some (r, args)) :
    ((m.ServeHTTP req).isUCT = true ↔ req.contentType ≠ "application/json") := by
  simp only [Mux.ServeHTTP, hroute]
  by_cases hct : req.contentType = "application/json"
  · rw [if_neg (by simp [hct])]
    constructor
    · intro habs
      exfalso
      cases hbr : req.bodyRead with
      | error e =>
        simp only [hbr] at habs
        simp [errOutcome, Outcome.isUCT] at habs
      | ok body =>
        simp only [hbr] at habs
        cases hin : Route.invoke r args body with
        | error re =>
          simp only [hin] at habs
          have hk := invoke_error_kind r args body re hin
          rcases hk with hk | hk | hk <;>
            simp [errOutcome, Outcome.isUCT, hk] at habs
        | ok resp =>
          simp only [hin] at habs
          by_cases hl : resp.length = 0
          · rw [if_pos hl] at habs
            simp [Outcome.isUCT] at habs
          · rw [if_neg hl] at habs
            simp [Outcome.isUCT] at habs
    · intro hne
      exact absurd hct hne
  · rw [if_pos hct]
    constructor
    · intro _
      exact hct
    · intro _
      simp [errOutcome, Outcome.isUCT]

/-- C7, witness: the amended equivalence at a concrete matched request with a
non-JSON content type. -/
theorem claim_C7_witness :
    (Mux.ServeHTTP exMux7 ⟨"GET", "/items", "text/plain", .ok []⟩).isUCT = true :=
  (claim_C7_amended exMux7 ⟨"GET", "/items", "text/plain", .ok []⟩ exRoute7 [] rfl).mpr
    (by decide)

/-- A registered route whose handler returns a `CodedError` (code 418) in its
error output slot. -/
def exRoute10 : Route :=
  ⟨⟨0, -1, 0⟩, [],
    fun _ => [⟨.kinterface, false, "", .coded 418 (.plain "teapot"), .error (.plain "")⟩],
    fun _ _ => .error (.plain "")⟩

/-- A mux with no ErrorFunc and the single route `POST /things` bound to
`exRoute10`. -/
def exMux10 : Mux :=
  ⟨"", none, [("POST", .mk [("things", .mk [] none (some exRoute10))] none none)]⟩

/-- C10, counterexample: with no user-supplied ErrorFunc at all, a handler
error that is itself a `CodedError` still changes the written status from
400 to its own code (418 here), contradicting the claim that 400 is used
unless an ErrorFunc rewrote the error. -/
theorem claim_C10_counterexample :
    Mux.ServeHTTP exMux10 ⟨"POST", "/things", "application/json", .ok []⟩ =
      .errorResponse .HandlerError 418 "teapot" := rfl

/-- C10, amended: every per-request error response is produced by
`respondError` with default status 400, and the written status is 400 unless
the error value after the optional ErrorFunc rewrite (the error itself, when
no ErrorFunc is set) is a `CodedError`, in which case that code's value is
written. -/
theorem claim_C10_amended :
    (∀ (m : Mux) (req : Request) (t : ErrorType) (c : Int) (msg : String),
      m.ServeHTTP req = .errorResponse t c msg →
      ∃ e : GoErr, (c, msg) = Mux.respondError m.ErrorFunc t 400 e) ∧
    (∀ (ef : Option (ErrorType → GoErr → GoErr)) (t : ErrorType) (e : GoErr),
      (Mux.respondError ef t 400 e).1 =
        match applyErrorFunc ef t e with
        | .plain _ => 400
        | .coded c _ => c) := by
  constructor
  · intro m req t c msg h
    unfold Mux.ServeHTTP at h
    cases hr : m.route req.Method req.Path with
    | none =>
      simp only [hr] at h
      cases h
    | some rp =>
      simp only [hr] at h
      by_cases hct : req.contentType = "application/json"
      · rw [if_neg (by simp [hct])] at h
        cases hbr : req.bodyRead with
        | error e =>
          simp only [hbr] at h
          unfold errOutcome at h
          rw [Outcome.errorResponse.injEq] at h
          obtain ⟨h1, h2, h3⟩ := h
          subst h1
          subst h2
          subst h3
          exact ⟨e, Prod.mk.eta⟩
        | ok body =>
          simp only [hbr] at h
          cases hin : Route.invoke rp.1 rp.2 body with
          | error re =>
            simp only [hin] at h
            unfold errOutcome at h
            rw [Outcome.errorResponse.injEq] at h
            obtain ⟨h1, h2, h3⟩ := h
            subst h1
            subst h2
            subst h3
            exact ⟨re.sub, Prod.mk.eta⟩
          | ok resp =>
            simp only [hin] at h
            by_cases hl : resp.length = 0
            · rw [if_pos hl] at h
              cases h
            · rw [if_neg hl] at h
              cases h
      · rw [if_pos hct] at h
        unfold errOutcome at h
        rw [Outcome.errorResponse.injEq] at h
        obtain ⟨h1, h2, h3⟩ := h
        subst h1
        subst h2
        subst h3
        exact ⟨.plain ("unsupported content type: got " ++ req.contentType), Prod.mk.eta⟩
  · intro ef t e
    cases happ : applyErrorFunc ef t e with
    | plain m => simp [Mux.respondError, happ]
    | coded cc sub => simp [Mux.respondError, happ]

/-- C10, witness: without an ErrorFunc, a `CodedError` handler error makes
`respondError` write the coded status. -/
theorem claim_C10_witness :
    (Mux.respondError none .HandlerError 400 (.coded 418 (.plain "teapot"))).1 = 418 := by
  have h := claim_C10_amended.2 none .HandlerError (.coded 418 (.plain "teapot"))
  simpa using h

/-- C8: the out-of-range-status condition `resp.Code < 200 && resp.Code >=
300` of `Response.GetBody` is false for every status code, so the branch is
unreachable: `GetBody` coincides everywhere with the same chain with that
branch removed, and in particular never produces an `UnexpectedStatusCode`
error from the range check. -/
theorem claim_C8 :
    (∀ code : Int, statusRangeCheck code = false) ∧
    (∀ (resp : Response) (objIsNil : Bool) (um : Option GoErr),
      resp.GetBody objIsNil um = Response.GetBodyNoRange resp objIsNil um) := by
  have hrc : ∀ code : Int, statusRangeCheck code = false := by
    intro code
    unfold statusRangeCheck
    split
    · exfalso
      omega
    · rfl
  refine ⟨hrc, ?_⟩
  intro resp objIsNil um
  simp [Response.GetBody, Response.GetBodyNoRange, hrc]

/-- C9: evaluation of `Response.GetBody` at the failing input: a 200
`application/json` response whose body fails JSON decoding returns no error
at all (`none`), because the source's last branch tests the still-nil named
return `err` instead of `jsonErr`; the claim (and the spec's taxonomy) say it
must be an `UnmarshalError` wrapping the decode error. -/
theorem claim_C9_bug :
    Response.GetBody ⟨none, 200, "application/json", "not json"⟩ false
      (some (.plain "invalid character")) = none := rfl

end Rest
